import Mathlib

/-!
# JNI bridge of the GPT-2 BPE tokenizer (`tokenizer_jni.c`)

A shallow embedding of the eight native methods of `NativeTokenizer`.

* The C heap holding the `TokenizerHandle` blocks is a map from addresses to
  live blocks; address `0` is `NULL`.  A `jlong` handle carries the address
  itself (`get_handle` is a cast).
* Reading or freeing a block that is not live has no defined behaviour in C;
  the model reports it as `Outcome.undefined`.
* The tokenizer engine (`tokenizer/gpt2bpe.h`, `tokenizer/simd.h`) is not part
  of the bridge: it is a parameter (`Engine`).  Every call the bridge makes
  into the engine is recorded, in order, in the `calls` of the result.
* The outcome of each libc/JNI request that can return `NULL` (`calloc`,
  `malloc`, `GetStringUTFChars`, `GetIntArrayElements`, `NewIntArray`,
  `NewStringUTF`) is an input of the call (`JNIEnv`).
-/

namespace TokenizerJNI

/-! ## Data model -/

/-- Maximum tokens for the encode output buffer (`#define MAX_TOKENS 32768`). -/
def MAX_TOKENS : Nat := 32768

/-- The native handle: `typedef struct { GPT2BPETokenizer tokenizer; jboolean loaded; }`.
The engine's tokenizer type is the parameter `τ`. -/
structure TokenizerHandle (τ : Type) where
  tokenizer : τ
  loaded : Bool

/-- The live `TokenizerHandle` blocks of the C heap, by address. -/
abbrev Heap (τ : Type) := Nat → Option (TokenizerHandle τ)

/-- The heap with no live block. -/
def Heap.empty {τ : Type} : Heap τ := fun _ => none

/-- Store a block at an address. -/
def Heap.write {τ : Type} (s : Heap τ) (p : Nat) (c : TokenizerHandle τ) : Heap τ :=
  fun q => if q = p then some c else s q

/-- Release the block at an address (`free`). -/
def Heap.free {τ : Type} (s : Heap τ) (p : Nat) : Heap τ :=
  fun q => if q = p then none else s q

/-- The result of `calloc(1, sizeof(TokenizerHandle))`: the allocator proposes
an address; the request yields a block exactly when the address is not `NULL`
and not already live, otherwise it yields `NULL` (`none`). -/
def calloc {τ : Type} (s : Heap τ) (proposed : Nat) : Option Nat :=
  if proposed = 0 then none
  else if (s proposed).isSome then none
  else some proposed

/-- The engine interface used by the bridge (`tokenizer/gpt2bpe.h`); the
functions themselves are outside the bridge and are taken as parameters.

* `gpt2_init` is the tokenizer that `gpt2_init` leaves in a zeroed block;
* `gpt2_load t vocab merges` is the success flag and the tokenizer left behind;
* `gpt2_encode t input capacity` is the returned count and the contents of
  the output buffer after the call (cell `i` of the `uint32_t` buffer);
* `gpt2_decode t ids` is the returned C string, `none` for `NULL`;
* `gpt2_vocab_size t` is the returned `int`.

Encoding, decoding and the size query read the tokenizer and do not change
it, and their result is a function of their arguments: the specification
makes the tables immutable after a load and `encode` pure. -/
structure Engine (τ : Type) where
  gpt2_init : τ
  gpt2_load : τ → String → String → Bool × τ
  gpt2_encode : τ → String → Nat → Int × (Nat → Nat)
  gpt2_decode : τ → List Nat → Option String
  gpt2_vocab_size : τ → Int

/-- One call from the bridge into the engine; `self` is the address of the
handle whose tokenizer is passed. -/
inductive EngineCall where
  | simd_init
  | gpt2_init (self : Nat)
  | gpt2_load (self : Nat) (vocab merges : String)
  | gpt2_encode (self : Nat) (input : String) (capacity : Nat)
  | gpt2_decode (self : Nat) (ids : List Nat)
  | gpt2_vocab_size (self : Nat)
  | gpt2_free (self : Nat)
  deriving DecidableEq, Repr

/-- Outcomes of the libc and JNI requests that can return `NULL`.
`calloc` is the address the allocator proposes for a new handle (`0` for
`NULL`); each flag says whether the request returned a non-`NULL` result:
`GetStringUTFChars` on the two paths and on the input text, `malloc` of the
token buffer, `GetIntArrayElements`, `NewIntArray` and `NewStringUTF`. -/
structure JNIEnv where
  calloc : Nat
  vocabChars : Bool
  mergesChars : Bool
  inputChars : Bool
  malloc : Bool
  intArrayElements : Bool
  newIntArray : Bool
  newStringUTF : Bool
  deriving DecidableEq, Repr

/-- An environment in which every request succeeds. -/
def JNIEnv.allOk (proposed : Nat) : JNIEnv :=
  ⟨proposed, true, true, true, true, true, true, true⟩

/-- What a native method leaves behind: the returned value, the heap, and the
engine calls it made, in order. -/
structure Ret (τ α : Type) where
  value : α
  heap : Heap τ
  calls : List EngineCall

/-- A native call either completes or has no defined behaviour (it read or
freed a block that is not live, or read past the token buffer). -/
inductive Outcome (α : Type) where
  | ok (r : α)
  | undefined

/-- Helper to get the native handle from the Java long: a cast. -/
def get_handle (ptr : Nat) : Nat := ptr

/-- Reinterpret a `uint32_t` cell as a `jint` (`(jint*)tokens`). -/
def toJint (x : Nat) : Int :=
  if x % 4294967296 < 2147483648 then ((x % 4294967296 : Nat) : Int)
  else ((x % 4294967296 : Nat) : Int) - 4294967296

/-- Reinterpret a `jint` as a `uint32_t` (`(const uint32_t*)ids`). -/
def toU32 (i : Int) : Nat := (i % 4294967296).toNat

/-- The Java string `NewStringUTF(env, bytes)` returns: the string built from
the bytes, `none` for `NULL` when the string cannot be constructed. -/
def NewStringUTF (env : JNIEnv) (bytes : String) : Option String :=
  if env.newStringUTF then some bytes else none

/-- The region `SetIntArrayRegion(env, result, 0, count, (jint*)tokens)` copies. -/
def intArrayRegion (tokens : Nat → Nat) (count : Nat) : List Int :=
  (List.range count).map (fun i => toJint (tokens i))

/-! ## The native methods -/

/-- Initialize SIMD and create a new tokenizer instance; returns the handle,
`0` when the allocation fails. -/
def Java_com_alpin_chat_tokenizer_NativeTokenizer_nativeCreate {τ : Type}
    (E : Engine τ) (env : JNIEnv) (s : Heap τ) : Outcome (Ret τ Nat) :=
  match calloc s env.calloc with
  | none => .ok ⟨0, s, [.simd_init]⟩
  | some handle =>
    .ok ⟨handle, s.write handle ⟨E.gpt2_init, false⟩, [.simd_init, .gpt2_init handle]⟩

/-- Load the tokenizer from the vocabulary and merges paths; returns whether
it loaded. -/
def Java_com_alpin_chat_tokenizer_NativeTokenizer_nativeLoad {τ : Type}
    (E : Engine τ) (env : JNIEnv) (s : Heap τ) (ptr : Nat)
    (vocabPath mergesPath : String) : Outcome (Ret τ Bool) :=
  let handle := get_handle ptr
  if handle = 0 then .ok ⟨false, s, []⟩
  else if !env.vocabChars || !env.mergesChars then .ok ⟨false, s, []⟩
  else
    match s handle with
    | none => .undefined
    | some c =>
      let r := E.gpt2_load c.tokenizer vocabPath mergesPath
      let result := r.1
      .ok ⟨result, s.write handle ⟨r.2, result⟩,
        if result then [.gpt2_load handle vocabPath mergesPath, .gpt2_vocab_size handle]
        else [.gpt2_load handle vocabPath mergesPath]⟩

/-- Encode text to token ids; returns the `int` array, `none` for `NULL`. -/
def Java_com_alpin_chat_tokenizer_NativeTokenizer_nativeEncode {τ : Type}
    (E : Engine τ) (env : JNIEnv) (s : Heap τ) (ptr : Nat) (text : String) :
    Outcome (Ret τ (Option (List Int))) :=
  let handle := get_handle ptr
  if handle = 0 then .ok ⟨none, s, []⟩
  else
    match s handle with
    | none => .undefined
    | some c =>
      if !c.loaded then .ok ⟨none, s, []⟩
      else if !env.inputChars then .ok ⟨none, s, []⟩
      else if !env.malloc then .ok ⟨none, s, []⟩
      else
        let r := E.gpt2_encode c.tokenizer text MAX_TOKENS
        let count := r.1
        let calls := [EngineCall.gpt2_encode handle text MAX_TOKENS]
        if count < 0 then .ok ⟨none, s, calls⟩
        else if !env.newIntArray then .ok ⟨none, s, calls⟩
        else if (MAX_TOKENS : Int) < count then .undefined
        else .ok ⟨some (intArrayRegion r.2 count.toNat), s, calls⟩

/-- Decode token ids back to text; returns the string, `none` for `NULL`. -/
def Java_com_alpin_chat_tokenizer_NativeTokenizer_nativeDecode {τ : Type}
    (E : Engine τ) (env : JNIEnv) (s : Heap τ) (ptr : Nat) (tokenIds : List Int) :
    Outcome (Ret τ (Option String)) :=
  let handle := get_handle ptr
  if handle = 0 then .ok ⟨none, s, []⟩
  else
    match s handle with
    | none => .undefined
    | some c =>
      if !c.loaded then .ok ⟨none, s, []⟩
      else
        let count := tokenIds.length
        if count = 0 then .ok ⟨NewStringUTF env "", s, []⟩
        else if !env.intArrayElements then .ok ⟨none, s, []⟩
        else
          let ids := tokenIds.map toU32
          match E.gpt2_decode c.tokenizer ids with
          | none => .ok ⟨none, s, [.gpt2_decode handle ids]⟩
          | some decoded => .ok ⟨NewStringUTF env decoded, s, [.gpt2_decode handle ids]⟩

/-- Get the vocabulary size. -/
def Java_com_alpin_chat_tokenizer_NativeTokenizer_nativeVocabSize {τ : Type}
    (E : Engine τ) (s : Heap τ) (ptr : Nat) : Outcome (Ret τ Int) :=
  let handle := get_handle ptr
  if handle = 0 then .ok ⟨0, s, []⟩
  else
    match s handle with
    | none => .undefined
    | some c =>
      if !c.loaded then .ok ⟨0, s, []⟩
      else .ok ⟨E.gpt2_vocab_size c.tokenizer, s, [.gpt2_vocab_size handle]⟩

/-- Count tokens in text (encode without returning the array). -/
def Java_com_alpin_chat_tokenizer_NativeTokenizer_nativeCountTokens {τ : Type}
    (E : Engine τ) (env : JNIEnv) (s : Heap τ) (ptr : Nat) (text : String) :
    Outcome (Ret τ Int) :=
  let handle := get_handle ptr
  if handle = 0 then .ok ⟨-1, s, []⟩
  else
    match s handle with
    | none => .undefined
    | some c =>
      if !c.loaded then .ok ⟨-1, s, []⟩
      else if !env.inputChars then .ok ⟨-1, s, []⟩
      else if !env.malloc then .ok ⟨-1, s, []⟩
      else
        let r := E.gpt2_encode c.tokenizer text MAX_TOKENS
        .ok ⟨r.1, s, [.gpt2_encode handle text MAX_TOKENS]⟩

/-- Free the tokenizer resources. -/
def Java_com_alpin_chat_tokenizer_NativeTokenizer_nativeDestroy {τ : Type}
    (_E : Engine τ) (s : Heap τ) (ptr : Nat) : Outcome (Ret τ Unit) :=
  let handle := get_handle ptr
  if handle = 0 then .ok ⟨(), s, []⟩
  else
    match s handle with
    | none => .undefined
    | some _ => .ok ⟨(), s.free handle, [.gpt2_free handle]⟩

/-- Check if the tokenizer is loaded. -/
def Java_com_alpin_chat_tokenizer_NativeTokenizer_nativeIsLoaded {τ : Type}
    (_E : Engine τ) (s : Heap τ) (ptr : Nat) : Outcome (Ret τ Bool) :=
  let handle := get_handle ptr
  if handle = 0 then .ok ⟨false, s, []⟩
  else
    match s handle with
    | none => .undefined
    | some c => .ok ⟨c.loaded, s, []⟩

/-! ## A reference engine

The bridge is verified for every engine.  To exercise the results on concrete
inputs an engine is needed; this one follows the specification's description
of the tokenizer on its concrete scenario. -/

/-- Modelled from the spec: the tokenizer instance of the engine
(`GPT2BPETokenizer`, declared in `tokenizer/gpt2bpe.h`): the
vocabulary, a symbol's id being its position, the merge rules in rank
order, and the instance's loaded/not-loaded flag. -/
structure SpecTokenizer where
  vocab : List String
  merges : List (String × String)
  loaded : Bool
  deriving DecidableEq, Repr

/-- Modelled from the spec: what `load` does on a second call, which the
specification leaves to the implementer: idempotent, or rejected. -/
inductive ReloadPolicy where
  | idempotent
  | rejected
  deriving DecidableEq, Repr

/-- Modelled from the spec: the vocabulary descriptions available to the
engine's loader, by path (a fixed file system); only
the scenario vocabulary `a:0, b:1, ab:2` exists. -/
def specVocabSource (path : String) : Option (List String) :=
  if path = "vocab.json" then some ["a", "b", "ab"] else none

/-- Modelled from the spec: the merge-rule files available to the loader, by
path, each line split into its whitespace-separated fields. -/
def specMergesSource (path : String) : Option (List (List String)) :=
  if path = "merges.txt" then some [["a", "b"]]
  else if path = "merges3.txt" then some [["a", "b", "c"]]
  else none

/-- Modelled from the spec: a merge-rule line must decompose into exactly two
fields, otherwise the load fails. -/
def specParseMerges : List (List String) → Option (List (String × String))
  | [] => some []
  | [l, r] :: rest => (specParseMerges rest).map (fun rules => (l, r) :: rules)
  | _ :: _ => none

/-- Modelled from the spec: `gpt2_load`.  On an instance that is not loaded, a
missing source or a malformed merge line fails the load and the instance
remains not loaded; otherwise the tables are populated and the instance is
loaded.  On an instance that is already loaded the call is idempotent
(success, nothing changes) or rejected (failure, nothing changes), by the
policy. -/
def specLoad (policy : ReloadPolicy) (t : SpecTokenizer) (vocab merges : String) :
    Bool × SpecTokenizer :=
  if t.loaded then
    match policy with
    | .idempotent => (true, t)
    | .rejected => (false, t)
  else
    match specVocabSource vocab, specMergesSource merges with
    | some v, some lines =>
      match specParseMerges lines with
      | some rules => (true, ⟨v, rules, true⟩)
      | none => (false, t)
    | _, _ => (false, t)

/-- Modelled from the spec: merge the leftmost adjacent occurrence of a pair. -/
def specMergePair (l r : String) : List String → Option (List String)
  | a :: b :: rest =>
    if a = l ∧ b = r then some ((a ++ b) :: rest)
    else (specMergePair l r (b :: rest)).map (fun m => a :: m)
  | _ => none

/-- Modelled from the spec: apply the lowest-rank rule that has an adjacent
occurrence, if any. -/
def specMergeStep : List (String × String) → List String → Option (List String)
  | [], _ => none
  | (l, r) :: rules, syms =>
    match specMergePair l r syms with
    | some m => some m
    | none => specMergeStep rules syms

/-- Modelled from the spec: repeat the merge step until no rule applies; each
step shortens the sequence, so its length bounds the number of rounds. -/
def specMergeLoop (rules : List (String × String)) : Nat → List String → List String
  | 0, syms => syms
  | n + 1, syms =>
    match specMergeStep rules syms with
    | none => syms
    | some m => specMergeLoop rules n m

/-- Modelled from the spec: `gpt2_encode` on one chunk of printable ASCII
(each byte is its own symbol); a symbol outside the vocabulary and an output
longer than the capacity are reported by a negative count. -/
def specEncode (t : SpecTokenizer) (input : String) (capacity : Nat) : Int × (Nat → Nat) :=
  let start := input.toList.map (fun c => String.mk [c])
  let syms := specMergeLoop t.merges start.length start
  let ids := syms.map (fun sym => t.vocab.indexOf sym)
  if ids.any (fun i => decide (t.vocab.length ≤ i)) then (-1, fun _ => 0)
  else if capacity < ids.length then (-1, fun _ => 0)
  else ((ids.length : Int), fun i => ids.getD i 0)

/-- Modelled from the spec: `gpt2_decode`; an id without a symbol fails the
call, otherwise the symbols are concatenated in order. -/
def specDecode (t : SpecTokenizer) : List Nat → Option String
  | [] => some ""
  | i :: ids =>
    match t.vocab[i]?, specDecode t ids with
    | some sym, some text => some (sym ++ text)
    | _, _ => none

/-- Modelled from the spec: the engine interface, instantiated for a reload
policy. -/
def specEngineWith (policy : ReloadPolicy) : Engine SpecTokenizer where
  gpt2_init := ⟨[], [], false⟩
  gpt2_load := specLoad policy
  gpt2_encode := specEncode
  gpt2_decode := specDecode
  gpt2_vocab_size := fun t => (t.vocab.length : Int)

/-- Modelled from the spec: the reference engine whose second load is
idempotent. -/
def specEngine : Engine SpecTokenizer := specEngineWith .idempotent

/-- The tokenizer the reference engine holds after loading the scenario files. -/
def specLoaded : SpecTokenizer := ⟨["a", "b", "ab"], [("a", "b")], true⟩

/-! ## Sequences of native calls -/

/-- One native call together with its arguments and environment. -/
inductive Op where
  | nativeCreate (env : JNIEnv)
  | nativeLoad (env : JNIEnv) (ptr : Nat) (vocabPath mergesPath : String)
  | nativeEncode (env : JNIEnv) (ptr : Nat) (text : String)
  | nativeDecode (env : JNIEnv) (ptr : Nat) (tokenIds : List Int)
  | nativeVocabSize (ptr : Nat)
  | nativeCountTokens (env : JNIEnv) (ptr : Nat) (text : String)
  | nativeDestroy (ptr : Nat)
  | nativeIsLoaded (ptr : Nat)
  deriving DecidableEq, Repr

/-- The call is `nativeLoad` or `nativeDestroy` on the given handle. -/
def Op.loadsOrDestroys (p : Nat) : Op → Bool
  | .nativeLoad _ ptr _ _ => decide (ptr = p)
  | .nativeDestroy ptr => decide (ptr = p)
  | _ => false

/-- The call is one of `nativeEncode`, `nativeDecode`, `nativeVocabSize`,
`nativeCountTokens`, `nativeIsLoaded`. -/
def Op.isQuery : Op → Bool
  | .nativeEncode _ _ _ => true
  | .nativeDecode _ _ _ => true
  | .nativeVocabSize _ => true
  | .nativeCountTokens _ _ _ => true
  | .nativeIsLoaded _ => true
  | _ => false

/-- The handle argument of a call (`0` for `nativeCreate`, which takes none). -/
def Op.handle : Op → Nat
  | .nativeCreate _ => 0
  | .nativeLoad _ ptr _ _ => ptr
  | .nativeEncode _ ptr _ => ptr
  | .nativeDecode _ ptr _ => ptr
  | .nativeVocabSize ptr => ptr
  | .nativeCountTokens _ ptr _ => ptr
  | .nativeDestroy ptr => ptr
  | .nativeIsLoaded ptr => ptr

/-- The heap a completed call leaves. -/
def Outcome.heapOf {τ α : Type} : Outcome (Ret τ α) → Outcome (Heap τ)
  | .ok r => .ok r.heap
  | .undefined => .undefined

/-- The heap after one native call. -/
def step {τ : Type} (E : Engine τ) (s : Heap τ) : Op → Outcome (Heap τ)
  | .nativeCreate env =>
    (Java_com_alpin_chat_tokenizer_NativeTokenizer_nativeCreate E env s).heapOf
  | .nativeLoad env ptr v m =>
    (Java_com_alpin_chat_tokenizer_NativeTokenizer_nativeLoad E env s ptr v m).heapOf
  | .nativeEncode env ptr text =>
    (Java_com_alpin_chat_tokenizer_NativeTokenizer_nativeEncode E env s ptr text).heapOf
  | .nativeDecode env ptr ids =>
    (Java_com_alpin_chat_tokenizer_NativeTokenizer_nativeDecode E env s ptr ids).heapOf
  | .nativeVocabSize ptr =>
    (Java_com_alpin_chat_tokenizer_NativeTokenizer_nativeVocabSize E s ptr).heapOf
  | .nativeCountTokens env ptr text =>
    (Java_com_alpin_chat_tokenizer_NativeTokenizer_nativeCountTokens E env s ptr text).heapOf
  | .nativeDestroy ptr =>
    (Java_com_alpin_chat_tokenizer_NativeTokenizer_nativeDestroy E s ptr).heapOf
  | .nativeIsLoaded ptr =>
    (Java_com_alpin_chat_tokenizer_NativeTokenizer_nativeIsLoaded E s ptr).heapOf

/-- The heap after a sequence of native calls, in order. -/
def run {τ : Type} (E : Engine τ) : Heap τ → List Op → Outcome (Heap τ)
  | s, [] => .ok s
  | s, op :: ops =>
    match step E s op with
    | .ok s2 => run E s2 ops
    | .undefined => .undefined

/-! ## Basic facts -/

theorem Heap.write_same {τ : Type} (s : Heap τ) (p : Nat) (c : TokenizerHandle τ) :
    (s.write p c) p = some c := by
  simp [Heap.write]

theorem Heap.write_other {τ : Type} (s : Heap τ) (p q : Nat) (c : TokenizerHandle τ)
    (h : q ≠ p) : (s.write p c) q = s q := by
  simp [Heap.write, h]

theorem Heap.free_other {τ : Type} (s : Heap τ) (p q : Nat) (h : q ≠ p) :
    (s.free p) q = s q := by
  simp [Heap.free, h]

theorem calloc_some {τ : Type} (s : Heap τ) (proposed a : Nat)
    (h : calloc s proposed = some a) : a = proposed ∧ a ≠ 0 ∧ s a = none := by
  unfold calloc at h
  split at h
  · exact absurd h (by simp)
  · split at h
    · exact absurd h (by simp)
    · rename_i h0 h1
      have ha : proposed = a := by simpa using h
      subst ha
      refine ⟨rfl, h0, ?_⟩
      cases hs : s proposed with
      | none => rfl
      | some c => simp [hs] at h1

/-! ## Handles that are null or not loaded (C1) -/

/-- C1: for a handle that is null, or whose block has the loaded flag false
(whatever its tokenizer holds), and for every argument and environment,
`nativeEncode` returns `NULL`, `nativeDecode` returns `NULL` (also for the
empty id array), `nativeVocabSize` returns 0 and `nativeCountTokens` returns
-1; each leaves the heap as it was and makes no call into the engine. -/
theorem C1_null_or_unloaded_fails {τ : Type} (E : Engine τ) (env : JNIEnv) (s : Heap τ)
    (ptr : Nat) (text : String) (tokenIds : List Int)
    (h : ptr = 0 ∨ ∃ t, s ptr = some ⟨t, false⟩) :
    Java_com_alpin_chat_tokenizer_NativeTokenizer_nativeEncode E env s ptr text
        = .ok ⟨none, s, []⟩ ∧
    Java_com_alpin_chat_tokenizer_NativeTokenizer_nativeDecode E env s ptr tokenIds
        = .ok ⟨none, s, []⟩ ∧
    Java_com_alpin_chat_tokenizer_NativeTokenizer_nativeDecode E env s ptr []
        = .ok ⟨none, s, []⟩ ∧
    Java_com_alpin_chat_tokenizer_NativeTokenizer_nativeVocabSize E s ptr
        = .ok ⟨0, s, []⟩ ∧
    Java_com_alpin_chat_tokenizer_NativeTokenizer_nativeCountTokens E env s ptr text
        = .ok ⟨-1, s, []⟩ := by
  rcases h with h | ⟨t, h⟩
  · subst h
    simp [Java_com_alpin_chat_tokenizer_NativeTokenizer_nativeEncode,
      Java_com_alpin_chat_tokenizer_NativeTokenizer_nativeDecode,
      Java_com_alpin_chat_tokenizer_NativeTokenizer_nativeVocabSize,
      Java_com_alpin_chat_tokenizer_NativeTokenizer_nativeCountTokens, get_handle]
  · by_cases h0 : ptr = 0
    · subst h0
      simp [Java_com_alpin_chat_tokenizer_NativeTokenizer_nativeEncode,
        Java_com_alpin_chat_tokenizer_NativeTokenizer_nativeDecode,
        Java_com_alpin_chat_tokenizer_NativeTokenizer_nativeVocabSize,
        Java_com_alpin_chat_tokenizer_NativeTokenizer_nativeCountTokens, get_handle]
    · simp [Java_com_alpin_chat_tokenizer_NativeTokenizer_nativeEncode,
        Java_com_alpin_chat_tokenizer_NativeTokenizer_nativeDecode,
        Java_com_alpin_chat_tokenizer_NativeTokenizer_nativeVocabSize,
        Java_com_alpin_chat_tokenizer_NativeTokenizer_nativeCountTokens, get_handle, h0, h]

/-- C1 at a concrete input: a created, never loaded handle of the reference
engine. -/
theorem C1_null_or_unloaded_fails_witness :
    ((1 : Nat) = 0 ∨ ∃ t, (Heap.empty.write 1 ⟨specEngine.gpt2_init, false⟩) 1
        = some ⟨t, false⟩) ∧
    Java_com_alpin_chat_tokenizer_NativeTokenizer_nativeEncode specEngine (JNIEnv.allOk 0)
        (Heap.empty.write 1 ⟨specEngine.gpt2_init, false⟩) 1 "ab"
      = .ok ⟨none, Heap.empty.write 1 ⟨specEngine.gpt2_init, false⟩, []⟩ :=
  ⟨Or.inr ⟨specEngine.gpt2_init, Heap.write_same _ _ _⟩,
   (C1_null_or_unloaded_fails specEngine (JNIEnv.allOk 0)
      (Heap.empty.write 1 ⟨specEngine.gpt2_init, false⟩) 1 "ab" [2]
      (Or.inr ⟨specEngine.gpt2_init, Heap.write_same _ _ _⟩)).1⟩

/-! ## Frame facts: which calls change the heap -/

theorem nativeEncode_heap {τ : Type} (E : Engine τ) (env : JNIEnv) (s : Heap τ) (ptr : Nat)
    (text : String) (r : Ret τ (Option (List Int)))
    (h : Java_com_alpin_chat_tokenizer_NativeTokenizer_nativeEncode E env s ptr text = .ok r) :
    r.heap = s := by
  unfold Java_com_alpin_chat_tokenizer_NativeTokenizer_nativeEncode at h
  simp only [get_handle] at h
  (repeat' split at h) <;> first | (cases h; rfl) | cases h

theorem nativeDecode_heap {τ : Type} (E : Engine τ) (env : JNIEnv) (s : Heap τ) (ptr : Nat)
    (ids : List Int) (r : Ret τ (Option String))
    (h : Java_com_alpin_chat_tokenizer_NativeTokenizer_nativeDecode E env s ptr ids = .ok r) :
    r.heap = s := by
  unfold Java_com_alpin_chat_tokenizer_NativeTokenizer_nativeDecode at h
  simp only [get_handle] at h
  (repeat' split at h) <;> first | (cases h; rfl) | cases h

theorem nativeVocabSize_heap {τ : Type} (E : Engine τ) (s : Heap τ) (ptr : Nat)
    (r : Ret τ Int)
    (h : Java_com_alpin_chat_tokenizer_NativeTokenizer_nativeVocabSize E s ptr = .ok r) :
    r.heap = s := by
  unfold Java_com_alpin_chat_tokenizer_NativeTokenizer_nativeVocabSize at h
  simp only [get_handle] at h
  (repeat' split at h) <;> first | (cases h; rfl) | cases h

theorem nativeCountTokens_heap {τ : Type} (E : Engine τ) (env : JNIEnv) (s : Heap τ)
    (ptr : Nat) (text : String) (r : Ret τ Int)
    (h : Java_com_alpin_chat_tokenizer_NativeTokenizer_nativeCountTokens E env s ptr text
      = .ok r) :
    r.heap = s := by
  unfold Java_com_alpin_chat_tokenizer_NativeTokenizer_nativeCountTokens at h
  simp only [get_handle] at h
  (repeat' split at h) <;> first | (cases h; rfl) | cases h

theorem nativeIsLoaded_heap {τ : Type} (E : Engine τ) (s : Heap τ) (ptr : Nat)
    (r : Ret τ Bool)
    (h : Java_com_alpin_chat_tokenizer_NativeTokenizer_nativeIsLoaded E s ptr = .ok r) :
    r.heap = s := by
  unfold Java_com_alpin_chat_tokenizer_NativeTokenizer_nativeIsLoaded at h
  simp only [get_handle] at h
  (repeat' split at h) <;> first | (cases h; rfl) | cases h

theorem heapOf_ok {τ α : Type} (o : Outcome (Ret τ α)) (s2 : Heap τ)
    (h : o.heapOf = .ok s2) : ∃ r, o = .ok r ∧ r.heap = s2 := by
  cases o with
  | ok r => exact ⟨r, rfl, by simpa [Outcome.heapOf] using h⟩
  | undefined => simp [Outcome.heapOf] at h

theorem step_query_heap {τ : Type} (E : Engine τ) (s s2 : Heap τ) (op : Op)
    (hq : op.isQuery = true) (h : step E s op = .ok s2) : s2 = s := by
  cases op with
  | nativeCreate env => simp [Op.isQuery] at hq
  | nativeLoad env ptr v m => simp [Op.isQuery] at hq
  | nativeDestroy ptr => simp [Op.isQuery] at hq
  | nativeEncode env ptr text =>
    obtain ⟨r, hr, hs⟩ := heapOf_ok _ _ h
    rw [← hs]; exact nativeEncode_heap E env s ptr text r hr
  | nativeDecode env ptr ids =>
    obtain ⟨r, hr, hs⟩ := heapOf_ok _ _ h
    rw [← hs]; exact nativeDecode_heap E env s ptr ids r hr
  | nativeVocabSize ptr =>
    obtain ⟨r, hr, hs⟩ := heapOf_ok _ _ h
    rw [← hs]; exact nativeVocabSize_heap E s ptr r hr
  | nativeCountTokens env ptr text =>
    obtain ⟨r, hr, hs⟩ := heapOf_ok _ _ h
    rw [← hs]; exact nativeCountTokens_heap E env s ptr text r hr
  | nativeIsLoaded ptr =>
    obtain ⟨r, hr, hs⟩ := heapOf_ok _ _ h
    rw [← hs]; exact nativeIsLoaded_heap E s ptr r hr

theorem run_query_heap {τ : Type} (E : Engine τ) (ops : List Op) :
    ∀ (s s2 : Heap τ), (∀ op ∈ ops, op.isQuery = true) → run E s ops = .ok s2 → s2 = s := by
  induction ops with
  | nil =>
    intro s s2 _ h
    simp only [run] at h
    cases h; rfl
  | cons op ops ih =>
    intro s s2 hq h
    simp only [run] at h
    cases hstep : step E s op with
    | undefined => rw [hstep] at h; cases h
    | ok s1 =>
      rw [hstep] at h
      have h1 : s1 = s := step_query_heap E s s1 op (hq op (List.mem_cons_self _ _)) hstep
      have h2 : s2 = s1 := ih s1 s2 (fun o ho => hq o (List.mem_cons_of_mem _ ho)) h
      rw [h2, h1]

/-- A call that is neither `nativeLoad` nor `nativeDestroy` on `p` leaves the
block at `p` as it was, when that block is live. -/
theorem step_other_block {τ : Type} (E : Engine τ) (s s2 : Heap τ) (p : Nat) (op : Op)
    (c : TokenizerHandle τ) (hlive : s p = some c)
    (hop : op.loadsOrDestroys p = false) (h : step E s op = .ok s2) : s2 p = some c := by
  by_cases hq : op.isQuery = true
  · rw [step_query_heap E s s2 op hq h]; exact hlive
  · cases op with
    | nativeEncode env ptr text => simp [Op.isQuery] at hq
    | nativeDecode env ptr ids => simp [Op.isQuery] at hq
    | nativeVocabSize ptr => simp [Op.isQuery] at hq
    | nativeCountTokens env ptr text => simp [Op.isQuery] at hq
    | nativeIsLoaded ptr => simp [Op.isQuery] at hq
    | nativeCreate env =>
      simp only [step, Java_com_alpin_chat_tokenizer_NativeTokenizer_nativeCreate] at h
      cases hc : calloc s env.calloc with
      | none =>
        rw [hc] at h
        simp only [Outcome.heapOf] at h
        cases h; exact hlive
      | some a =>
        rw [hc] at h
        simp only [Outcome.heapOf] at h
        cases h
        obtain ⟨_, _, hfree⟩ := calloc_some s env.calloc a hc
        have hne : p ≠ a := by
          intro hpa
          rw [hpa, hfree] at hlive
          cases hlive
        rw [Heap.write_other _ _ _ _ hne]; exact hlive
    | nativeLoad env ptr v m =>
      have hne : p ≠ ptr := by
        intro hp
        simp [Op.loadsOrDestroys, hp] at hop
      simp only [step, Java_com_alpin_chat_tokenizer_NativeTokenizer_nativeLoad,
        get_handle] at h
      split at h
      · simp only [Outcome.heapOf] at h
        cases h; exact hlive
      · split at h
        · simp only [Outcome.heapOf] at h
          cases h; exact hlive
        · split at h
          · simp only [Outcome.heapOf] at h
            cases h
          · simp only [Outcome.heapOf] at h
            cases h
            rw [Heap.write_other _ _ _ _ hne]; exact hlive
    | nativeDestroy ptr =>
      have hne : p ≠ ptr := by
        intro hp
        simp [Op.loadsOrDestroys, hp] at hop
      simp only [step, Java_com_alpin_chat_tokenizer_NativeTokenizer_nativeDestroy,
        get_handle] at h
      split at h
      · simp only [Outcome.heapOf] at h
        cases h; exact hlive
      · split at h
        · simp only [Outcome.heapOf] at h
          cases h
        · simp only [Outcome.heapOf] at h
          cases h
          rw [Heap.free_other _ _ _ hne]; exact hlive

theorem run_other_block {τ : Type} (E : Engine τ) (p : Nat) (c : TokenizerHandle τ)
    (ops : List Op) :
    ∀ (s s2 : Heap τ), s p = some c → (∀ op ∈ ops, op.loadsOrDestroys p = false) →
      run E s ops = .ok s2 → s2 p = some c := by
  induction ops with
  | nil =>
    intro s s2 hlive _ h
    simp only [run] at h
    cases h; exact hlive
  | cons op ops ih =>
    intro s s2 hlive hops h
    simp only [run] at h
    cases hstep : step E s op with
    | undefined => rw [hstep] at h; cases h
    | ok s1 =>
      rw [hstep] at h
      exact ih s1 s2
        (step_other_block E s s1 p op c hlive (hops op (List.mem_cons_self _ _)) hstep)
        (fun o ho => hops o (List.mem_cons_of_mem _ ho)) h

/-! ## A fresh instance (C2) -/

/-- C2: for an instance returned by a successful `nativeCreate` (a non-null
handle), after any sequence of native calls that never calls `nativeLoad` on
that handle (nor destroys it), `nativeVocabSize` returns 0 and
`nativeIsLoaded` returns false. -/
theorem C2_fresh_instance_not_loaded {τ : Type} (E : Engine τ) (env : JNIEnv) (s : Heap τ)
    (r : Ret τ Nat) (ops : List Op) (s2 : Heap τ)
    (hcreate : Java_com_alpin_chat_tokenizer_NativeTokenizer_nativeCreate E env s = .ok r)
    (hok : r.value ≠ 0)
    (hops : ∀ op ∈ ops, op.loadsOrDestroys r.value = false)
    (hrun : run E r.heap ops = .ok s2) :
    Java_com_alpin_chat_tokenizer_NativeTokenizer_nativeVocabSize E s2 r.value
        = .ok ⟨0, s2, []⟩ ∧
    Java_com_alpin_chat_tokenizer_NativeTokenizer_nativeIsLoaded E s2 r.value
        = .ok ⟨false, s2, []⟩ := by
  unfold Java_com_alpin_chat_tokenizer_NativeTokenizer_nativeCreate at hcreate
  cases hc : calloc s env.calloc with
  | none =>
    rw [hc] at hcreate
    cases hcreate
    exact absurd rfl hok
  | some a =>
    rw [hc] at hcreate
    cases hcreate
    have hlive : s2 a = some ⟨E.gpt2_init, false⟩ :=
      run_other_block E a ⟨E.gpt2_init, false⟩ ops _ s2 (Heap.write_same _ _ _) hops hrun
    have ha : a ≠ 0 := hok
    simp [Java_com_alpin_chat_tokenizer_NativeTokenizer_nativeVocabSize,
      Java_com_alpin_chat_tokenizer_NativeTokenizer_nativeIsLoaded, get_handle, ha, hlive]

/-- C2 at a concrete input: create at address 1 on the empty heap, then
encode with it and ask whether it is loaded. -/
theorem C2_fresh_instance_not_loaded_witness :
    Java_com_alpin_chat_tokenizer_NativeTokenizer_nativeVocabSize specEngine
        (Heap.empty.write 1 ⟨specEngine.gpt2_init, false⟩) 1
      = .ok ⟨0, Heap.empty.write 1 ⟨specEngine.gpt2_init, false⟩, []⟩ ∧
    Java_com_alpin_chat_tokenizer_NativeTokenizer_nativeIsLoaded specEngine
        (Heap.empty.write 1 ⟨specEngine.gpt2_init, false⟩) 1
      = .ok ⟨false, Heap.empty.write 1 ⟨specEngine.gpt2_init, false⟩, []⟩ :=
  C2_fresh_instance_not_loaded specEngine (JNIEnv.allOk 1) Heap.empty
    ⟨1, Heap.empty.write 1 ⟨specEngine.gpt2_init, false⟩,
      [.simd_init, .gpt2_init 1]⟩
    [.nativeEncode (JNIEnv.allOk 0) 1 "ab", .nativeIsLoaded 1]
    (Heap.empty.write 1 ⟨specEngine.gpt2_init, false⟩)
    rfl (by decide) (by decide) rfl

/-! ## Loading (C3, C7) -/

/-- What `nativeLoad` does on a live handle: with both path strings it runs
the engine's load on the block's tokenizer and stores the result in the
loaded flag; without one of them it returns false and changes nothing. -/
theorem nativeLoad_live {τ : Type} (E : Engine τ) (env : JNIEnv) (s : Heap τ) (ptr : Nat)
    (v m : String) (c : TokenizerHandle τ) (hne : ptr ≠ 0) (hlive : s ptr = some c) :
    Java_com_alpin_chat_tokenizer_NativeTokenizer_nativeLoad E env s ptr v m =
      if env.vocabChars = true ∧ env.mergesChars = true then
        .ok ⟨(E.gpt2_load c.tokenizer v m).1,
          s.write ptr ⟨(E.gpt2_load c.tokenizer v m).2, (E.gpt2_load c.tokenizer v m).1⟩,
          if (E.gpt2_load c.tokenizer v m).1 = true
          then [.gpt2_load ptr v m, .gpt2_vocab_size ptr]
          else [.gpt2_load ptr v m]⟩
      else .ok ⟨false, s, []⟩ := by
  unfold Java_com_alpin_chat_tokenizer_NativeTokenizer_nativeLoad
  simp only [get_handle, if_neg hne]
  cases hv : env.vocabChars <;> cases hm : env.mergesChars <;> simp [hlive]

theorem nativeIsLoaded_live {τ : Type} (E : Engine τ) (s : Heap τ) (ptr : Nat)
    (c : TokenizerHandle τ) (hne : ptr ≠ 0) (hlive : s ptr = some c) :
    Java_com_alpin_chat_tokenizer_NativeTokenizer_nativeIsLoaded E s ptr
      = .ok ⟨c.loaded, s, []⟩ := by
  simp [Java_com_alpin_chat_tokenizer_NativeTokenizer_nativeIsLoaded, get_handle, hne, hlive]

/-- C3 fails as stated: on an already loaded instance, a `nativeLoad` that
cannot obtain the vocabulary path string returns false and leaves the
instance as it was, so `nativeIsLoaded` called right after returns true. -/
theorem C3_counterexample :
    Java_com_alpin_chat_tokenizer_NativeTokenizer_nativeLoad specEngine
        ⟨0, false, true, true, true, true, true, true⟩
        (Heap.empty.write 1 ⟨specLoaded, true⟩) 1 "vocab.json" "merges.txt"
      = .ok ⟨false, Heap.empty.write 1 ⟨specLoaded, true⟩, []⟩ ∧
    Java_com_alpin_chat_tokenizer_NativeTokenizer_nativeIsLoaded specEngine
        (Heap.empty.write 1 ⟨specLoaded, true⟩) 1
      = .ok ⟨true, Heap.empty.write 1 ⟨specLoaded, true⟩, []⟩ :=
  ⟨rfl, rfl⟩

/-- C3, amended: for every live non-null handle, in any prior state, and every
pair of sources, `nativeLoad` completes and `nativeIsLoaded` called right
after returns what `nativeLoad` returned whenever `nativeLoad` returned true,
and also whenever it returned false after both path strings were obtained
(the engine's load ran and failed) or on an instance that was not loaded
before.  When a path string cannot be obtained `nativeLoad` returns false and
leaves the heap as it was. -/
theorem C3_load_result_is_flag {τ : Type} (E : Engine τ) (env : JNIEnv) (s : Heap τ)
    (ptr : Nat) (v m : String) (c : TokenizerHandle τ)
    (hne : ptr ≠ 0) (hlive : s ptr = some c) :
    ∃ r, Java_com_alpin_chat_tokenizer_NativeTokenizer_nativeLoad E env s ptr v m = .ok r ∧
      (r.value = true →
        Java_com_alpin_chat_tokenizer_NativeTokenizer_nativeIsLoaded E r.heap ptr
          = .ok ⟨true, r.heap, []⟩) ∧
      (r.value = false →
        (env.vocabChars = true ∧ env.mergesChars = true) ∨ c.loaded = false →
        Java_com_alpin_chat_tokenizer_NativeTokenizer_nativeIsLoaded E r.heap ptr
          = .ok ⟨false, r.heap, []⟩) ∧
      (¬ (env.vocabChars = true ∧ env.mergesChars = true) →
        r.value = false ∧ r.heap = s ∧ r.calls = []) := by
  rw [nativeLoad_live E env s ptr v m c hne hlive]
  by_cases hchars : env.vocabChars = true ∧ env.mergesChars = true
  · rw [if_pos hchars]
    refine ⟨_, rfl, ?_, ?_, ?_⟩
    · intro hv
      simp only at hv
      rw [nativeIsLoaded_live E _ ptr _ hne (Heap.write_same _ _ _), hv]
    · intro hv _
      simp only at hv
      rw [nativeIsLoaded_live E _ ptr _ hne (Heap.write_same _ _ _), hv]
    · intro hno
      exact absurd hchars hno
  · rw [if_neg hchars]
    refine ⟨_, rfl, ?_, ?_, ?_⟩
    · intro hv
      simp at hv
    · intro _ hor
      rcases hor with hor | hor
      · exact absurd hor hchars
      · rw [nativeIsLoaded_live E s ptr c hne hlive, hor]
    · intro _
      exact ⟨rfl, rfl, rfl⟩

/-- C3 (amended) at a concrete input: a never loaded instance of the reference
engine, loaded from a merges source with a three-field line. -/
theorem C3_load_result_is_flag_witness :
    ((1 : Nat) ≠ 0 ∧
      (Heap.empty.write 1 ⟨specEngine.gpt2_init, false⟩) 1
        = some ⟨specEngine.gpt2_init, false⟩) ∧
    ∃ r, Java_com_alpin_chat_tokenizer_NativeTokenizer_nativeLoad specEngine (JNIEnv.allOk 0)
        (Heap.empty.write 1 ⟨specEngine.gpt2_init, false⟩) 1 "vocab.json" "merges3.txt"
        = .ok r ∧
      (r.value = true →
        Java_com_alpin_chat_tokenizer_NativeTokenizer_nativeIsLoaded specEngine r.heap 1
          = .ok ⟨true, r.heap, []⟩) ∧
      (r.value = false →
        ((JNIEnv.allOk 0).vocabChars = true ∧ (JNIEnv.allOk 0).mergesChars = true) ∨
          (⟨specEngine.gpt2_init, false⟩ : TokenizerHandle SpecTokenizer).loaded = false →
        Java_com_alpin_chat_tokenizer_NativeTokenizer_nativeIsLoaded specEngine r.heap 1
          = .ok ⟨false, r.heap, []⟩) ∧
      (¬ ((JNIEnv.allOk 0).vocabChars = true ∧ (JNIEnv.allOk 0).mergesChars = true) →
        r.value = false ∧ r.heap = Heap.empty.write 1 ⟨specEngine.gpt2_init, false⟩ ∧
          r.calls = []) :=
  ⟨⟨by decide, rfl⟩,
   C3_load_result_is_flag specEngine (JNIEnv.allOk 0)
     (Heap.empty.write 1 ⟨specEngine.gpt2_init, false⟩) 1 "vocab.json" "merges3.txt"
     ⟨specEngine.gpt2_init, false⟩ (by decide) rfl⟩

theorem toU32_toJint (x : Nat) : toU32 (toJint x) = x % 4294967296 := by
  unfold toU32 toJint
  split <;> omega

theorem toJint_small (x : Nat) (h : x < 2147483648) : toJint x = (x : Int) := by
  unfold toJint
  split <;> omega

theorem intArrayRegion_length (tokens : Nat → Nat) (count : Nat) :
    (intArrayRegion tokens count).length = count := by
  simp [intArrayRegion]

theorem intArrayRegion_toU32 (tokens : Nat → Nat) (count : Nat) :
    (intArrayRegion tokens count).map toU32
      = (List.range count).map (fun i => tokens i % 4294967296) := by
  simp [intArrayRegion, List.map_map, Function.comp_def, toU32_toJint]

theorem intArrayRegion_small (tokens : Nat → Nat) (count : Nat)
    (h : ∀ i, i < count → tokens i < 2147483648) :
    intArrayRegion tokens count = (List.range count).map (fun i => (tokens i : Int)) := by
  unfold intArrayRegion
  apply List.map_congr_left
  intro i hi
  exact toJint_small _ (h i (List.mem_range.mp hi))

/-- What `nativeEncode` does on a live, loaded handle. -/
theorem nativeEncode_loaded {τ : Type} (E : Engine τ) (env : JNIEnv) (s : Heap τ) (ptr : Nat)
    (text : String) (t : τ) (hne : ptr ≠ 0) (hlive : s ptr = some ⟨t, true⟩) :
    Java_com_alpin_chat_tokenizer_NativeTokenizer_nativeEncode E env s ptr text =
      if env.inputChars = false then .ok ⟨none, s, []⟩
      else if env.malloc = false then .ok ⟨none, s, []⟩
      else if (E.gpt2_encode t text MAX_TOKENS).1 < 0 then
        .ok ⟨none, s, [.gpt2_encode ptr text MAX_TOKENS]⟩
      else if env.newIntArray = false then
        .ok ⟨none, s, [.gpt2_encode ptr text MAX_TOKENS]⟩
      else if (MAX_TOKENS : Int) < (E.gpt2_encode t text MAX_TOKENS).1 then .undefined
      else .ok ⟨some (intArrayRegion (E.gpt2_encode t text MAX_TOKENS).2
          (E.gpt2_encode t text MAX_TOKENS).1.toNat), s,
          [.gpt2_encode ptr text MAX_TOKENS]⟩ := by
  unfold Java_com_alpin_chat_tokenizer_NativeTokenizer_nativeEncode
  simp only [get_handle, if_neg hne, hlive]
  cases env.inputChars <;> cases env.malloc <;> cases env.newIntArray <;> simp

/-- What `nativeCountTokens` does on a live, loaded handle. -/
theorem nativeCountTokens_loaded {τ : Type} (E : Engine τ) (env : JNIEnv) (s : Heap τ)
    (ptr : Nat) (text : String) (t : τ) (hne : ptr ≠ 0) (hlive : s ptr = some ⟨t, true⟩) :
    Java_com_alpin_chat_tokenizer_NativeTokenizer_nativeCountTokens E env s ptr text =
      if env.inputChars = false then .ok ⟨-1, s, []⟩
      else if env.malloc = false then .ok ⟨-1, s, []⟩
      else .ok ⟨(E.gpt2_encode t text MAX_TOKENS).1, s,
          [.gpt2_encode ptr text MAX_TOKENS]⟩ := by
  unfold Java_com_alpin_chat_tokenizer_NativeTokenizer_nativeCountTokens
  simp only [get_handle, if_neg hne, hlive]
  cases env.inputChars <;> cases env.malloc <;> simp

/-- C4: on a loaded handle, for every text and environment, `nativeEncode`
never returns a shortened id sequence as success.  Given that the engine
respects the capacity it is handed, the call completes and leaves the heap as
it was; the only call it makes into the engine is `gpt2_encode` with capacity
`MAX_TOKENS = 32768`, made whenever the input string and the token buffer are
obtained; the result is `NULL` whenever the engine reports a negative count;
any array it returns has exactly the engine's count as length (at most
32768) and holds the first count cells of the engine's buffer in order, each
reinterpreted as a Java int (read back as unsigned they are the cells);
when the Java array can be allocated and the count is not negative an array is
returned, the empty one for a count of 0. -/
theorem C4_encode_whole_or_null {τ : Type} (E : Engine τ) (env : JNIEnv) (s : Heap τ)
    (ptr : Nat) (text : String) (t : τ)
    (hne : ptr ≠ 0) (hlive : s ptr = some ⟨t, true⟩)
    (hcap : (E.gpt2_encode t text MAX_TOKENS).1 ≤ (MAX_TOKENS : Int)) :
    MAX_TOKENS = 32768 ∧
    ∃ r, Java_com_alpin_chat_tokenizer_NativeTokenizer_nativeEncode E env s ptr text = .ok r ∧
      r.heap = s ∧
      (r.calls = [] ∨ r.calls = [.gpt2_encode ptr text 32768]) ∧
      (env.inputChars = true → env.malloc = true →
        r.calls = [.gpt2_encode ptr text 32768]) ∧
      ((E.gpt2_encode t text MAX_TOKENS).1 < 0 → r.value = none) ∧
      (∀ arr, r.value = some arr →
        r.calls = [.gpt2_encode ptr text 32768] ∧
        (arr.length : Int) = (E.gpt2_encode t text MAX_TOKENS).1 ∧
        arr.length ≤ 32768 ∧
        arr = intArrayRegion (E.gpt2_encode t text MAX_TOKENS).2 arr.length ∧
        arr.map toU32 = (List.range arr.length).map
          (fun i => (E.gpt2_encode t text MAX_TOKENS).2 i % 4294967296) ∧
        ((∀ i, i < arr.length → (E.gpt2_encode t text MAX_TOKENS).2 i < 2147483648) →
          arr = (List.range arr.length).map
            (fun i => ((E.gpt2_encode t text MAX_TOKENS).2 i : Int)))) ∧
      (env.inputChars = true → env.malloc = true → env.newIntArray = true →
        0 ≤ (E.gpt2_encode t text MAX_TOKENS).1 →
        r.value = some (intArrayRegion (E.gpt2_encode t text MAX_TOKENS).2
          (E.gpt2_encode t text MAX_TOKENS).1.toNat)) ∧
      (env.inputChars = true → env.malloc = true → env.newIntArray = true →
        (E.gpt2_encode t text MAX_TOKENS).1 = 0 → r.value = some []) := by
  refine ⟨rfl, ?_⟩
  rw [nativeEncode_loaded E env s ptr text t hne hlive]
  have hregion : ∀ arr : List Int,
      arr = intArrayRegion (E.gpt2_encode t text MAX_TOKENS).2
        (E.gpt2_encode t text MAX_TOKENS).1.toNat →
      0 ≤ (E.gpt2_encode t text MAX_TOKENS).1 →
      (arr.length : Int) = (E.gpt2_encode t text MAX_TOKENS).1 ∧
      arr.length ≤ 32768 ∧
      arr = intArrayRegion (E.gpt2_encode t text MAX_TOKENS).2 arr.length ∧
      arr.map toU32 = (List.range arr.length).map
        (fun i => (E.gpt2_encode t text MAX_TOKENS).2 i % 4294967296) ∧
      ((∀ i, i < arr.length → (E.gpt2_encode t text MAX_TOKENS).2 i < 2147483648) →
        arr = (List.range arr.length).map
          (fun i => ((E.gpt2_encode t text MAX_TOKENS).2 i : Int))) := by
    intro arr harr hpos
    have hlen : arr.length = (E.gpt2_encode t text MAX_TOKENS).1.toNat := by
      rw [harr, intArrayRegion_length]
    have hM : (MAX_TOKENS : Int) = 32768 := rfl
    refine ⟨by omega, by omega, ?_, ?_, ?_⟩
    · rw [hlen]; exact harr
    · rw [hlen, harr]; exact intArrayRegion_toU32 _ _
    · intro hsmall
      rw [hlen] at hsmall ⊢
      rw [harr]; exact intArrayRegion_small _ _ hsmall
  by_cases h1 : env.inputChars = false
  · rw [if_pos h1]
    refine ⟨_, rfl, rfl, Or.inl rfl, ?_, fun _ => rfl, ?_, ?_, ?_⟩
    · intro h; rw [h1] at h; cases h
    · intro arr h; cases h
    · intro h; rw [h1] at h; cases h
    · intro h; rw [h1] at h; cases h
  rw [if_neg h1]
  by_cases h2 : env.malloc = false
  · rw [if_pos h2]
    refine ⟨_, rfl, rfl, Or.inl rfl, ?_, fun _ => rfl, ?_, ?_, ?_⟩
    · intro _ h; rw [h2] at h; cases h
    · intro arr h; cases h
    · intro _ h; rw [h2] at h; cases h
    · intro _ h; rw [h2] at h; cases h
  rw [if_neg h2]
  by_cases h3 : (E.gpt2_encode t text MAX_TOKENS).1 < 0
  · rw [if_pos h3]
    refine ⟨_, rfl, rfl, Or.inr rfl, fun _ _ => rfl, fun _ => rfl, ?_, ?_, ?_⟩
    · intro arr h; cases h
    · intro _ _ _ h; omega
    · intro _ _ _ h; omega
  rw [if_neg h3]
  by_cases h4 : env.newIntArray = false
  · rw [if_pos h4]
    refine ⟨_, rfl, rfl, Or.inr rfl, fun _ _ => rfl, fun _ => rfl, ?_, ?_, ?_⟩
    · intro arr h; cases h
    · intro _ _ h; rw [h4] at h; cases h
    · intro _ _ h; rw [h4] at h; cases h
  rw [if_neg h4, if_neg (by omega)]
  refine ⟨_, rfl, rfl, Or.inr rfl, fun _ _ => rfl, fun h => absurd h h3, ?_, ?_, ?_⟩
  · intro arr h
    have harr : arr = intArrayRegion (E.gpt2_encode t text MAX_TOKENS).2
        (E.gpt2_encode t text MAX_TOKENS).1.toNat := by
      simp only [Option.some.injEq] at h
      exact h.symm
    exact ⟨rfl, hregion arr harr (by omega)⟩
  · intro _ _ _ _; rfl
  · intro _ _ _ h0
    simp only [h0]
    rfl

/-- C4 at a concrete input: the reference engine, loaded with the scenario
files, encoding the text ab, returns the one-element array holding id 2. -/
theorem C4_encode_whole_or_null_witness :
    ((1 : Nat) ≠ 0 ∧ (Heap.empty.write 1 ⟨specLoaded, true⟩) 1 = some ⟨specLoaded, true⟩ ∧
      (specEngine.gpt2_encode specLoaded "ab" MAX_TOKENS).1 ≤ (MAX_TOKENS : Int)) ∧
    ∃ r, Java_com_alpin_chat_tokenizer_NativeTokenizer_nativeEncode specEngine
        (JNIEnv.allOk 0) (Heap.empty.write 1 ⟨specLoaded, true⟩) 1 "ab" = .ok r ∧
      r.value = some [2] ∧ r.calls = [.gpt2_encode 1 "ab" 32768] :=
  ⟨⟨by decide, rfl, by decide⟩,
   match C4_encode_whole_or_null specEngine (JNIEnv.allOk 0)
      (Heap.empty.write 1 ⟨specLoaded, true⟩) 1 "ab" specLoaded (by decide) rfl
      (by decide) with
   | ⟨_, r, hr, _, _, hcalls, _, _, hval, _⟩ =>
     ⟨r, hr, (hval rfl rfl rfl (by decide)).trans (by decide), hcalls rfl rfl⟩⟩

/-! ## Decoding (C5, C6) -/

/-- C5: on a loaded handle, `nativeDecode` of the empty id array returns the
empty string, a string and not `NULL`, whenever the Java string can be built,
whatever the engine and the tokenizer are; in every environment it makes no
call into the engine and leaves the heap as it was, and its value is what
`NewStringUTF` gave for the empty C string. -/
theorem C5_decode_empty {τ : Type} (E : Engine τ) (env : JNIEnv) (s : Heap τ) (ptr : Nat)
    (t : τ) (hne : ptr ≠ 0) (hlive : s ptr = some ⟨t, true⟩)
    (hstr : env.newStringUTF = true) :
    Java_com_alpin_chat_tokenizer_NativeTokenizer_nativeDecode E env s ptr []
      = .ok ⟨some "", s, []⟩ ∧
    ∀ env0 : JNIEnv,
      Java_com_alpin_chat_tokenizer_NativeTokenizer_nativeDecode E env0 s ptr []
        = .ok ⟨if env0.newStringUTF = true then some "" else none, s, []⟩ := by
  constructor
  · simp [Java_com_alpin_chat_tokenizer_NativeTokenizer_nativeDecode, get_handle, hne, hlive,
      NewStringUTF, hstr]
  · intro env0
    simp [Java_com_alpin_chat_tokenizer_NativeTokenizer_nativeDecode, get_handle, hne, hlive,
      NewStringUTF]

/-- C5 at a concrete input: the loaded reference engine. -/
theorem C5_decode_empty_witness :
    ((1 : Nat) ≠ 0 ∧ (Heap.empty.write 1 ⟨specLoaded, true⟩) 1 = some ⟨specLoaded, true⟩ ∧
      (JNIEnv.allOk 0).newStringUTF = true) ∧
    Java_com_alpin_chat_tokenizer_NativeTokenizer_nativeDecode specEngine (JNIEnv.allOk 0)
        (Heap.empty.write 1 ⟨specLoaded, true⟩) 1 []
      = .ok ⟨some "", Heap.empty.write 1 ⟨specLoaded, true⟩, []⟩ :=
  ⟨⟨by decide, rfl, rfl⟩,
   (C5_decode_empty specEngine (JNIEnv.allOk 0) (Heap.empty.write 1 ⟨specLoaded, true⟩) 1
     specLoaded (by decide) rfl rfl).1⟩

theorem toU32_cast (i : Int) : ((toU32 i : Nat) : Int) = i % 4294967296 := by
  unfold toU32
  omega

theorem toU32_lt (i : Int) : toU32 i < 4294967296 := by
  unfold toU32
  omega

theorem toU32_neg (i : Int) (hlo : -2147483648 ≤ i) (hneg : i < 0) :
    2147483648 ≤ toU32 i := by
  unfold toU32
  omega

/-- The reference engine has no symbol for an id at or past its vocabulary
size. -/
theorem specDecode_unknown (t : SpecTokenizer) (u : List Nat) (x : Nat) (hx : x ∈ u)
    (hvs : specEngine.gpt2_vocab_size t ≤ (x : Int)) : specEngine.gpt2_decode t u = none := by
  have hlen : t.vocab.length ≤ x := by
    simpa [specEngine, specEngineWith] using hvs
  show specDecode t u = none
  induction u with
  | nil => cases hx
  | cons i ids ih =>
    rcases List.mem_cons.mp hx with h | h
    · subst h
      have hget : t.vocab[x]? = none := List.getElem?_eq_none hlen
      simp [specDecode, hget]
    · have htail : specDecode t ids = none := ih h
      simp only [specDecode, htail]
      cases t.vocab[i]? <;> rfl

/-- What `nativeDecode` does on a live, loaded handle and a non-empty id
array. -/
theorem nativeDecode_loaded {τ : Type} (E : Engine τ) (env : JNIEnv) (s : Heap τ) (ptr : Nat)
    (tokenIds : List Int) (t : τ) (hne : ptr ≠ 0) (hlive : s ptr = some ⟨t, true⟩)
    (hids : tokenIds ≠ []) :
    Java_com_alpin_chat_tokenizer_NativeTokenizer_nativeDecode E env s ptr tokenIds =
      if env.intArrayElements = false then .ok ⟨none, s, []⟩
      else
        match E.gpt2_decode t (tokenIds.map toU32) with
        | none => .ok ⟨none, s, [.gpt2_decode ptr (tokenIds.map toU32)]⟩
        | some decoded =>
          .ok ⟨NewStringUTF env decoded, s, [.gpt2_decode ptr (tokenIds.map toU32)]⟩ := by
  have hlen : tokenIds.length ≠ 0 := by
    intro h
    exact hids (List.length_eq_zero.mp h)
  unfold Java_com_alpin_chat_tokenizer_NativeTokenizer_nativeDecode
  simp only [get_handle, if_neg hne, hlive, if_neg hlen]
  cases env.intArrayElements <;> simp

/-- C6: on a loaded handle and a non-empty id array, `nativeDecode` completes
and leaves the heap as it was; when the array elements are obtained its only
engine call is `gpt2_decode` on the ids converted one by one, in order (same
length, position k holds the unsigned value of the k-th Java int, which is
the int modulo 2^32, so a negative int becomes an id of at least 2^31).
It returns `NULL`, never a string, whenever the engine returns `NULL`; any
string it returns is the engine's text unchanged; and when the engine
succeeds and the Java string can be built it returns the engine's text.
When the elements are not obtained it returns `NULL` without calling the
engine.  With an engine that has no symbol for ids at or past its vocabulary
size, an array containing such an id, in particular the vocabulary size
itself, gives `NULL`. -/
theorem C6_decode_hands_ids_over {τ : Type} (E : Engine τ) (env : JNIEnv) (s : Heap τ)
    (ptr : Nat) (tokenIds : List Int) (t : τ)
    (hne : ptr ≠ 0) (hlive : s ptr = some ⟨t, true⟩) (hids : tokenIds ≠ [])
    (hunk : ∀ (u : List Nat) (x : Nat), x ∈ u → E.gpt2_vocab_size t ≤ (x : Int) →
      E.gpt2_decode t u = none) :
    ∃ r, Java_com_alpin_chat_tokenizer_NativeTokenizer_nativeDecode E env s ptr tokenIds
        = .ok r ∧
      r.heap = s ∧
      (env.intArrayElements = true →
        r.calls = [.gpt2_decode ptr (tokenIds.map toU32)]) ∧
      (env.intArrayElements = false → r.calls = [] ∧ r.value = none) ∧
      (tokenIds.map toU32).length = tokenIds.length ∧
      (∀ k, (tokenIds.map toU32).get? k = (tokenIds.get? k).map toU32) ∧
      (∀ i : Int, ((toU32 i : Nat) : Int) = i % 4294967296 ∧ toU32 i < 4294967296 ∧
        (-2147483648 ≤ i → i < 0 → 2147483648 ≤ toU32 i)) ∧
      (E.gpt2_decode t (tokenIds.map toU32) = none → r.value = none) ∧
      (∀ text, r.value = some text →
        r.calls = [.gpt2_decode ptr (tokenIds.map toU32)] ∧
        E.gpt2_decode t (tokenIds.map toU32) = some text) ∧
      (∀ text, env.intArrayElements = true → env.newStringUTF = true →
        E.gpt2_decode t (tokenIds.map toU32) = some text → r.value = some text) ∧
      ((∃ i ∈ tokenIds, E.gpt2_vocab_size t ≤ ((toU32 i : Nat) : Int)) → r.value = none) ∧
      (0 ≤ E.gpt2_vocab_size t → E.gpt2_vocab_size t < 4294967296 →
        E.gpt2_vocab_size t ∈ tokenIds → r.value = none) := by
  have hbad : (∃ i ∈ tokenIds, E.gpt2_vocab_size t ≤ ((toU32 i : Nat) : Int)) →
      E.gpt2_decode t (tokenIds.map toU32) = none := by
    rintro ⟨i, hi, hle⟩
    exact hunk _ (toU32 i) (List.mem_map_of_mem toU32 hi) hle
  have hvs : 0 ≤ E.gpt2_vocab_size t → E.gpt2_vocab_size t < 4294967296 →
      E.gpt2_vocab_size t ∈ tokenIds →
      ∃ i ∈ tokenIds, E.gpt2_vocab_size t ≤ ((toU32 i : Nat) : Int) := by
    intro h0 h1 hmem
    refine ⟨_, hmem, ?_⟩
    rw [toU32_cast]
    omega
  have hconv : ∀ i : Int, ((toU32 i : Nat) : Int) = i % 4294967296 ∧ toU32 i < 4294967296 ∧
      (-2147483648 ≤ i → i < 0 → 2147483648 ≤ toU32 i) :=
    fun i => ⟨toU32_cast i, toU32_lt i, toU32_neg i⟩
  have hlenmap : (tokenIds.map toU32).length = tokenIds.length := by simp
  have horder : ∀ k, (tokenIds.map toU32).get? k = (tokenIds.get? k).map toU32 := by
    intro k; simp
  rw [nativeDecode_loaded E env s ptr tokenIds t hne hlive hids]
  cases henv : env.intArrayElements
  · rw [if_pos rfl]
    refine ⟨_, rfl, rfl, ?_, ?_, hlenmap, horder, hconv, ?_, ?_, ?_, ?_, ?_⟩
    · intro h; cases h
    · intro _; exact ⟨rfl, rfl⟩
    · intro _; rfl
    · intro text h; cases h
    · intro text h; cases h
    · intro _; rfl
    · intro _ _ _; rfl
  · rw [if_neg (by simp)]
    cases hdec : E.gpt2_decode t (tokenIds.map toU32) with
    | none =>
      refine ⟨_, rfl, rfl, ?_, ?_, hlenmap, horder, hconv, ?_, ?_, ?_, ?_, ?_⟩
      · intro _; rfl
      · intro h; cases h
      · intro _; rfl
      · intro text h; cases h
      · intro text _ _ h; cases h
      · intro _; rfl
      · intro _ _ _; rfl
    | some decoded =>
      refine ⟨_, rfl, rfl, ?_, ?_, hlenmap, horder, hconv, ?_, ?_, ?_, ?_, ?_⟩
      · intro _; rfl
      · intro h; cases h
      · intro h; cases h
      · intro text h
        refine ⟨rfl, ?_⟩
        simp only [NewStringUTF] at h
        split at h
        · exact h
        · cases h
      · intro text _ hstr h
        simp only [NewStringUTF, hstr, if_true]
        exact h
      · intro h
        rw [hbad h] at hdec
        cases hdec
      · intro h0 h1 hmem
        rw [hbad (hvs h0 h1 hmem)] at hdec
        cases hdec

/-- C6 at concrete inputs: the loaded reference engine (vocabulary size 3)
decoding ids 2 and 3 returns `NULL` after handing both ids to the engine, and
decoding ids 2 and 0 returns the engine's text. -/
theorem C6_decode_hands_ids_over_witness :
    ((1 : Nat) ≠ 0 ∧ (Heap.empty.write 1 ⟨specLoaded, true⟩) 1 = some ⟨specLoaded, true⟩ ∧
      ([2, 3] : List Int) ≠ [] ∧ ([2, 0] : List Int) ≠ []) ∧
    (∃ r, Java_com_alpin_chat_tokenizer_NativeTokenizer_nativeDecode specEngine
        (JNIEnv.allOk 0) (Heap.empty.write 1 ⟨specLoaded, true⟩) 1 [2, 3] = .ok r ∧
      r.calls = [.gpt2_decode 1 [2, 3]] ∧ r.value = none) ∧
    (∃ r, Java_com_alpin_chat_tokenizer_NativeTokenizer_nativeDecode specEngine
        (JNIEnv.allOk 0) (Heap.empty.write 1 ⟨specLoaded, true⟩) 1 [2, 0] = .ok r ∧
      r.calls = [.gpt2_decode 1 [2, 0]] ∧ r.value = some "aba") :=
  ⟨⟨by decide, rfl, by decide, by decide⟩,
   match C6_decode_hands_ids_over specEngine (JNIEnv.allOk 0)
      (Heap.empty.write 1 ⟨specLoaded, true⟩) 1 [2, 3] specLoaded (by decide) rfl
      (by decide) (specDecode_unknown specLoaded) with
   | ⟨r, hr, _, hcall, _, _, _, _, _, _, _, _, hvs⟩ =>
     ⟨r, hr, (hcall rfl).trans (by decide), hvs (by decide) (by decide) (by decide)⟩,
   match C6_decode_hands_ids_over specEngine (JNIEnv.allOk 0)
      (Heap.empty.write 1 ⟨specLoaded, true⟩) 1 [2, 0] specLoaded (by decide) rfl
      (by decide) (specDecode_unknown specLoaded) with
   | ⟨r, hr, _, hcall, _, _, _, _, _, _, htext, _, _⟩ =>
     ⟨r, hr, (hcall rfl).trans (by decide), htext "aba" rfl rfl (by decide)⟩⟩

/-! ## Counting tokens (C9) -/

/-- When `nativeEncode` returns an array the handle is live and loaded, the
input string and the token buffer were obtained, and the array is the region
of the engine's buffer of the engine's count. -/
theorem nativeEncode_some {τ : Type} (E : Engine τ) (env : JNIEnv) (s : Heap τ) (ptr : Nat)
    (text : String) (r : Ret τ (Option (List Int))) (arr : List Int)
    (h : Java_com_alpin_chat_tokenizer_NativeTokenizer_nativeEncode E env s ptr text = .ok r)
    (hv : r.value = some arr) :
    ∃ t, ptr ≠ 0 ∧ s ptr = some ⟨t, true⟩ ∧ env.inputChars = true ∧ env.malloc = true ∧
      0 ≤ (E.gpt2_encode t text MAX_TOKENS).1 ∧
      arr = intArrayRegion (E.gpt2_encode t text MAX_TOKENS).2
        (E.gpt2_encode t text MAX_TOKENS).1.toNat := by
  by_cases hne : ptr = 0
  · subst hne
    simp [Java_com_alpin_chat_tokenizer_NativeTokenizer_nativeEncode, get_handle] at h
    subst h
    cases hv
  cases hs : s ptr with
  | none =>
    simp [Java_com_alpin_chat_tokenizer_NativeTokenizer_nativeEncode, get_handle, hne, hs] at h
  | some c =>
    obtain ⟨t, l⟩ := c
    cases l with
    | false =>
      simp [Java_com_alpin_chat_tokenizer_NativeTokenizer_nativeEncode, get_handle, hne,
        hs] at h
      subst h
      cases hv
    | true =>
      rw [nativeEncode_loaded E env s ptr text t hne hs] at h
      refine ⟨t, hne, rfl, ?_⟩
      by_cases h1 : env.inputChars = false
      · rw [if_pos h1] at h; cases h; cases hv
      rw [if_neg h1] at h
      by_cases h2 : env.malloc = false
      · rw [if_pos h2] at h; cases h; cases hv
      rw [if_neg h2] at h
      by_cases h3 : (E.gpt2_encode t text MAX_TOKENS).1 < 0
      · rw [if_pos h3] at h; cases h; cases hv
      rw [if_neg h3] at h
      by_cases h4 : env.newIntArray = false
      · rw [if_pos h4] at h; cases h; cases hv
      rw [if_neg h4] at h
      by_cases h5 : (MAX_TOKENS : Int) < (E.gpt2_encode t text MAX_TOKENS).1
      · rw [if_pos h5] at h; cases h
      rw [if_neg h5] at h
      cases h
      simp only [Option.some.injEq] at hv
      exact ⟨by simpa using h1, by simpa using h2, by omega, hv.symm⟩

/-- C9: `nativeCountTokens` is encode without the array.  For every handle,
text and environment: whenever `nativeEncode` returns an id array,
`nativeCountTokens` called on the heap it left, with the same handle and
text, returns that array's length.  On a loaded handle, once the input string
and the token buffer are obtained, `nativeCountTokens` returns the engine's
count; when that count is negative `nativeEncode` returns `NULL`, and
(the Java array being available) `nativeEncode` returns `NULL` only when the
count, hence the value of `nativeCountTokens`, is negative. -/
theorem C9_count_is_encode_count {τ : Type} (E : Engine τ) (env : JNIEnv) (s : Heap τ)
    (ptr : Nat) (text : String) :
    (∀ r arr,
      Java_com_alpin_chat_tokenizer_NativeTokenizer_nativeEncode E env s ptr text = .ok r →
      r.value = some arr →
      Java_com_alpin_chat_tokenizer_NativeTokenizer_nativeCountTokens E env r.heap ptr text
        = .ok ⟨(arr.length : Int), s, [.gpt2_encode ptr text MAX_TOKENS]⟩) ∧
    (∀ t, ptr ≠ 0 → s ptr = some ⟨t, true⟩ → env.inputChars = true → env.malloc = true →
      Java_com_alpin_chat_tokenizer_NativeTokenizer_nativeCountTokens E env s ptr text
        = .ok ⟨(E.gpt2_encode t text MAX_TOKENS).1, s, [.gpt2_encode ptr text MAX_TOKENS]⟩ ∧
      ((E.gpt2_encode t text MAX_TOKENS).1 < 0 →
        Java_com_alpin_chat_tokenizer_NativeTokenizer_nativeEncode E env s ptr text
          = .ok ⟨none, s, [.gpt2_encode ptr text MAX_TOKENS]⟩) ∧
      (∀ r, env.newIntArray = true →
        Java_com_alpin_chat_tokenizer_NativeTokenizer_nativeEncode E env s ptr text = .ok r →
        r.value = none → (E.gpt2_encode t text MAX_TOKENS).1 < 0)) := by
  constructor
  · intro r arr h hv
    obtain ⟨t, hne, hlive, h1, h2, hpos, harr⟩ := nativeEncode_some E env s ptr text r arr h hv
    rw [nativeEncode_heap E env s ptr text r h,
      nativeCountTokens_loaded E env s ptr text t hne hlive]
    simp only [h1, h2, Bool.true_eq_false, if_false]
    have hlen : (arr.length : Int) = (E.gpt2_encode t text MAX_TOKENS).1 := by
      rw [harr, intArrayRegion_length]
      omega
    rw [hlen]
  · intro t hne hlive h1 h2
    refine ⟨?_, ?_, ?_⟩
    · rw [nativeCountTokens_loaded E env s ptr text t hne hlive]
      simp [h1, h2]
    · intro hneg
      rw [nativeEncode_loaded E env s ptr text t hne hlive]
      simp [h1, h2, hneg]
    · intro r h4 h hv
      rw [nativeEncode_loaded E env s ptr text t hne hlive] at h
      simp only [h1, h2, h4, Bool.true_eq_false, if_false] at h
      by_cases h3 : (E.gpt2_encode t text MAX_TOKENS).1 < 0
      · exact h3
      · rw [if_neg h3] at h
        by_cases h5 : (MAX_TOKENS : Int) < (E.gpt2_encode t text MAX_TOKENS).1
        · rw [if_pos h5] at h; cases h
        · rw [if_neg h5] at h
          cases h
          cases hv

/-- C9 at concrete inputs: with the loaded reference engine, the text ab is
encoded to a one-element array and counted as 1; the text abc, which has a
symbol outside the vocabulary, is counted as -1. -/
theorem C9_count_is_encode_count_witness :
    Java_com_alpin_chat_tokenizer_NativeTokenizer_nativeCountTokens specEngine
        (JNIEnv.allOk 0) (Heap.empty.write 1 ⟨specLoaded, true⟩) 1 "ab"
      = .ok ⟨1, Heap.empty.write 1 ⟨specLoaded, true⟩, [.gpt2_encode 1 "ab" MAX_TOKENS]⟩ ∧
    Java_com_alpin_chat_tokenizer_NativeTokenizer_nativeCountTokens specEngine
        (JNIEnv.allOk 0) (Heap.empty.write 1 ⟨specLoaded, true⟩) 1 "abc"
      = .ok ⟨-1, Heap.empty.write 1 ⟨specLoaded, true⟩, [.gpt2_encode 1 "abc" MAX_TOKENS]⟩ :=
  ⟨(C9_count_is_encode_count specEngine (JNIEnv.allOk 0)
      (Heap.empty.write 1 ⟨specLoaded, true⟩) 1 "ab").1
      ⟨some [2], Heap.empty.write 1 ⟨specLoaded, true⟩, [.gpt2_encode 1 "ab" MAX_TOKENS]⟩
      [2] rfl rfl,
   ((C9_count_is_encode_count specEngine (JNIEnv.allOk 0)
      (Heap.empty.write 1 ⟨specLoaded, true⟩) 1 "abc").2 specLoaded (by decide) rfl rfl
      rfl).1⟩

/-! ## The loaded flag is written by create and load only (C10) -/

/-- After a `nativeLoad` that returned true the handle is non-null and its
block is live with the loaded flag set. -/
theorem nativeLoad_true {τ : Type} (E : Engine τ) (env : JNIEnv) (s : Heap τ) (ptr : Nat)
    (v m : String) (r : Ret τ Bool)
    (h : Java_com_alpin_chat_tokenizer_NativeTokenizer_nativeLoad E env s ptr v m = .ok r)
    (hv : r.value = true) : ptr ≠ 0 ∧ ∃ t, r.heap ptr = some ⟨t, true⟩ := by
  by_cases hne : ptr = 0
  · subst hne
    simp [Java_com_alpin_chat_tokenizer_NativeTokenizer_nativeLoad, get_handle] at h
    subst h
    cases hv
  refine ⟨hne, ?_⟩
  cases hs : s ptr with
  | none =>
    unfold Java_com_alpin_chat_tokenizer_NativeTokenizer_nativeLoad at h
    simp only [get_handle, if_neg hne, hs] at h
    split at h
    · cases h; cases hv
    · cases h
  | some c =>
    rw [nativeLoad_live E env s ptr v m c hne hs] at h
    split at h
    · cases h
      simp only at hv
      refine ⟨(E.gpt2_load c.tokenizer v m).2, ?_⟩
      show (s.write ptr _) ptr = _
      rw [Heap.write_same, hv]
    · cases h; cases hv

/-- A query on a null or live handle completes and leaves the heap as it was,
provided the engine never reports more ids than the capacity it is given. -/
theorem step_query_defined {τ : Type} (E : Engine τ) (s : Heap τ) (op : Op)
    (hq : op.isQuery = true) (hh : op.handle = 0 ∨ (s op.handle).isSome = true)
    (hcap : ∀ t text, (E.gpt2_encode t text MAX_TOKENS).1 ≤ (MAX_TOKENS : Int)) :
    step E s op = .ok s := by
  have key : ∀ ptr : Nat, (ptr = 0 ∨ (s ptr).isSome = true) →
      ptr = 0 ∨ ∃ c, ptr ≠ 0 ∧ s ptr = some c := by
    intro ptr h
    by_cases h0 : ptr = 0
    · exact Or.inl h0
    · rcases h with h | h
      · exact absurd h h0
      · cases hs : s ptr with
        | none => simp [hs] at h
        | some c => exact Or.inr ⟨c, h0, rfl⟩
  cases op with
  | nativeCreate env => simp [Op.isQuery] at hq
  | nativeLoad env ptr v m => simp [Op.isQuery] at hq
  | nativeDestroy ptr => simp [Op.isQuery] at hq
  | nativeEncode env ptr text =>
    rcases key ptr hh with h0 | ⟨c, h0, hs⟩
    · subst h0
      simp [step, Java_com_alpin_chat_tokenizer_NativeTokenizer_nativeEncode, get_handle,
        Outcome.heapOf]
    · obtain ⟨t, l⟩ := c
      cases l with
      | false =>
        simp [step, Java_com_alpin_chat_tokenizer_NativeTokenizer_nativeEncode, get_handle,
          Outcome.heapOf, h0, hs]
      | true =>
        have hc := hcap t text
        simp only [step, nativeEncode_loaded E env s ptr text t h0 hs]
        have h5 : ¬ (MAX_TOKENS : Int) < (E.gpt2_encode t text MAX_TOKENS).1 := by omega
        simp only [if_neg h5]
        (repeat' split) <;> rfl
  | nativeDecode env ptr ids =>
    rcases key ptr hh with h0 | ⟨c, h0, hs⟩
    · subst h0
      simp [step, Java_com_alpin_chat_tokenizer_NativeTokenizer_nativeDecode, get_handle,
        Outcome.heapOf]
    · simp only [step, Java_com_alpin_chat_tokenizer_NativeTokenizer_nativeDecode, get_handle,
        if_neg h0, hs]
      (repeat' split) <;> rfl
  | nativeVocabSize ptr =>
    rcases key ptr hh with h0 | ⟨c, h0, hs⟩
    · subst h0
      simp [step, Java_com_alpin_chat_tokenizer_NativeTokenizer_nativeVocabSize, get_handle,
        Outcome.heapOf]
    · simp only [step, Java_com_alpin_chat_tokenizer_NativeTokenizer_nativeVocabSize,
        get_handle, if_neg h0, hs]
      (repeat' split) <;> rfl
  | nativeCountTokens env ptr text =>
    rcases key ptr hh with h0 | ⟨c, h0, hs⟩
    · subst h0
      simp [step, Java_com_alpin_chat_tokenizer_NativeTokenizer_nativeCountTokens, get_handle,
        Outcome.heapOf]
    · simp only [step, Java_com_alpin_chat_tokenizer_NativeTokenizer_nativeCountTokens,
        get_handle, if_neg h0, hs]
      (repeat' split) <;> rfl
  | nativeIsLoaded ptr =>
    rcases key ptr hh with h0 | ⟨c, h0, hs⟩
    · subst h0
      simp [step, Java_com_alpin_chat_tokenizer_NativeTokenizer_nativeIsLoaded, get_handle,
        Outcome.heapOf]
    · simp [step, Java_com_alpin_chat_tokenizer_NativeTokenizer_nativeIsLoaded, get_handle,
        Outcome.heapOf, h0, hs]

theorem run_query_defined {τ : Type} (E : Engine τ) (s : Heap τ) (ops : List Op)
    (hq : ∀ op ∈ ops, op.isQuery = true)
    (hh : ∀ op ∈ ops, op.handle = 0 ∨ (s op.handle).isSome = true)
    (hcap : ∀ t text, (E.gpt2_encode t text MAX_TOKENS).1 ≤ (MAX_TOKENS : Int)) :
    run E s ops = .ok s := by
  induction ops with
  | nil => rfl
  | cons op ops ih =>
    simp only [run]
    rw [step_query_defined E s op (hq op (List.mem_cons_self _ _))
      (hh op (List.mem_cons_self _ _)) hcap]
    exact ih (fun o ho => hq o (List.mem_cons_of_mem _ ho))
      (fun o ho => hh o (List.mem_cons_of_mem _ ho))

/-- C10: `nativeEncode`, `nativeDecode`, `nativeVocabSize`, `nativeCountTokens`
and `nativeIsLoaded` leave the whole heap, hence every loaded flag, as it
was, for every handle, argument and environment, whatever they return.
Hence once `nativeLoad` has returned true on a handle, after any sequence of
these five calls (on any handles) `nativeIsLoaded` on that handle returns
true; and such a sequence completes when each call is given a null or live
handle and the engine never reports more ids than the capacity. -/
theorem C10_queries_keep_flag {τ : Type} (E : Engine τ) (env : JNIEnv) (s : Heap τ)
    (ptr : Nat) (v m : String) (r : Ret τ Bool) (ops : List Op)
    (hload : Java_com_alpin_chat_tokenizer_NativeTokenizer_nativeLoad E env s ptr v m = .ok r)
    (htrue : r.value = true)
    (hq : ∀ op ∈ ops, op.isQuery = true) :
    (∀ env0 s0 p text r0,
      Java_com_alpin_chat_tokenizer_NativeTokenizer_nativeEncode E env0 s0 p text = .ok r0 →
      r0.heap = s0) ∧
    (∀ env0 s0 p ids r0,
      Java_com_alpin_chat_tokenizer_NativeTokenizer_nativeDecode E env0 s0 p ids = .ok r0 →
      r0.heap = s0) ∧
    (∀ s0 p r0,
      Java_com_alpin_chat_tokenizer_NativeTokenizer_nativeVocabSize E s0 p = .ok r0 →
      r0.heap = s0) ∧
    (∀ env0 s0 p text r0,
      Java_com_alpin_chat_tokenizer_NativeTokenizer_nativeCountTokens E env0 s0 p text
        = .ok r0 →
      r0.heap = s0) ∧
    (∀ s0 p r0,
      Java_com_alpin_chat_tokenizer_NativeTokenizer_nativeIsLoaded E s0 p = .ok r0 →
      r0.heap = s0) ∧
    (∀ s2, run E r.heap ops = .ok s2 →
      s2 = r.heap ∧
      Java_com_alpin_chat_tokenizer_NativeTokenizer_nativeIsLoaded E s2 ptr
        = .ok ⟨true, s2, []⟩) ∧
    ((∀ op ∈ ops, op.handle = 0 ∨ (r.heap op.handle).isSome = true) →
      (∀ t text, (E.gpt2_encode t text MAX_TOKENS).1 ≤ (MAX_TOKENS : Int)) →
      run E r.heap ops = .ok r.heap) := by
  refine ⟨fun env0 s0 p text r0 h => nativeEncode_heap E env0 s0 p text r0 h,
    fun env0 s0 p ids r0 h => nativeDecode_heap E env0 s0 p ids r0 h,
    fun s0 p r0 h => nativeVocabSize_heap E s0 p r0 h,
    fun env0 s0 p text r0 h => nativeCountTokens_heap E env0 s0 p text r0 h,
    fun s0 p r0 h => nativeIsLoaded_heap E s0 p r0 h, ?_, ?_⟩
  · intro s2 hrun
    have hs2 : s2 = r.heap := run_query_heap E ops r.heap s2 hq hrun
    obtain ⟨hne, t, hlive⟩ := nativeLoad_true E env s ptr v m r hload htrue
    refine ⟨hs2, ?_⟩
    rw [hs2]
    exact nativeIsLoaded_live E r.heap ptr ⟨t, true⟩ hne hlive
  · intro hh hcap
    exact run_query_defined E r.heap ops hq hh hcap

/-- C10 at a concrete input: the reference engine loaded at address 1, then
an encode, a decode of an unknown id, both size queries and a null-handle
query. -/
theorem C10_queries_keep_flag_witness :
    Java_com_alpin_chat_tokenizer_NativeTokenizer_nativeIsLoaded specEngine
        ((Heap.empty.write 1 ⟨specEngine.gpt2_init, false⟩).write 1 ⟨specLoaded, true⟩) 1
      = .ok ⟨true,
          (Heap.empty.write 1 ⟨specEngine.gpt2_init, false⟩).write 1 ⟨specLoaded, true⟩, []⟩ :=
  ((C10_queries_keep_flag specEngine (JNIEnv.allOk 0)
      (Heap.empty.write 1 ⟨specEngine.gpt2_init, false⟩) 1 "vocab.json" "merges.txt"
      ⟨true, (Heap.empty.write 1 ⟨specEngine.gpt2_init, false⟩).write 1 ⟨specLoaded, true⟩,
        [.gpt2_load 1 "vocab.json" "merges.txt", .gpt2_vocab_size 1]⟩
      [.nativeEncode (JNIEnv.allOk 0) 1 "ab", .nativeDecode (JNIEnv.allOk 0) 1 [3],
        .nativeVocabSize 1, .nativeCountTokens (JNIEnv.allOk 0) 1 "abc", .nativeIsLoaded 0]
      rfl rfl (by decide)).2.2.2.2.2.1
    ((Heap.empty.write 1 ⟨specEngine.gpt2_init, false⟩).write 1 ⟨specLoaded, true⟩) rfl).2

/-! ## Destroying an instance (C8) -/

/-- C8 fails as stated: after `nativeDestroy` on a live handle the handle
value is still non-null, so a later `nativeIsLoaded` with it is not answered
with false: it reads the released block; and a second `nativeDestroy` with
it frees the released block again instead of releasing nothing. -/
theorem C8_counterexample :
    Java_com_alpin_chat_tokenizer_NativeTokenizer_nativeDestroy specEngine
        (Heap.empty.write 1 ⟨specLoaded, true⟩) 1
      = .ok ⟨(), (Heap.empty.write 1 ⟨specLoaded, true⟩).free 1, [.gpt2_free 1]⟩ ∧
    Java_com_alpin_chat_tokenizer_NativeTokenizer_nativeIsLoaded specEngine
        ((Heap.empty.write 1 ⟨specLoaded, true⟩).free 1) 1 = .undefined ∧
    Java_com_alpin_chat_tokenizer_NativeTokenizer_nativeDestroy specEngine
        ((Heap.empty.write 1 ⟨specLoaded, true⟩).free 1) 1 = .undefined :=
  ⟨rfl, rfl, rfl⟩

/-- C8, amended: `nativeDestroy` on a live handle frees the engine's tables
and then the handle's block, leaving every other block as it was, and
`nativeDestroy` on the null handle releases nothing.  The only handle the
native methods detect is the null handle: with it `nativeLoad` returns false,
`nativeEncode` and `nativeDecode` return `NULL`, `nativeVocabSize` returns 0,
`nativeCountTokens` returns -1 and `nativeIsLoaded` returns false, each
leaving the heap as it was.  A released, non-null handle is not detected: in
any later heap where its block is not live, each method goes on to access
the block (`nativeLoad` once both path strings are obtained), which has no
defined behaviour. -/
theorem C8_only_null_detected {τ : Type} (E : Engine τ) (env : JNIEnv) (s : Heap τ)
    (ptr : Nat) (c : TokenizerHandle τ) (v m text : String) (tokenIds : List Int)
    (hne : ptr ≠ 0) (hlive : s ptr = some c) :
    (Java_com_alpin_chat_tokenizer_NativeTokenizer_nativeDestroy E s ptr
        = .ok ⟨(), s.free ptr, [.gpt2_free ptr]⟩ ∧
      (s.free ptr) ptr = none ∧ (∀ q, q ≠ ptr → (s.free ptr) q = s q)) ∧
    (∀ s2 : Heap τ,
      Java_com_alpin_chat_tokenizer_NativeTokenizer_nativeDestroy E s2 0 = .ok ⟨(), s2, []⟩ ∧
      Java_com_alpin_chat_tokenizer_NativeTokenizer_nativeLoad E env s2 0 v m
        = .ok ⟨false, s2, []⟩ ∧
      Java_com_alpin_chat_tokenizer_NativeTokenizer_nativeEncode E env s2 0 text
        = .ok ⟨none, s2, []⟩ ∧
      Java_com_alpin_chat_tokenizer_NativeTokenizer_nativeDecode E env s2 0 tokenIds
        = .ok ⟨none, s2, []⟩ ∧
      Java_com_alpin_chat_tokenizer_NativeTokenizer_nativeVocabSize E s2 0
        = .ok ⟨0, s2, []⟩ ∧
      Java_com_alpin_chat_tokenizer_NativeTokenizer_nativeCountTokens E env s2 0 text
        = .ok ⟨-1, s2, []⟩ ∧
      Java_com_alpin_chat_tokenizer_NativeTokenizer_nativeIsLoaded E s2 0
        = .ok ⟨false, s2, []⟩) ∧
    (∀ s2 : Heap τ, s2 ptr = none →
      (env.vocabChars = true → env.mergesChars = true →
        Java_com_alpin_chat_tokenizer_NativeTokenizer_nativeLoad E env s2 ptr v m
          = .undefined) ∧
      Java_com_alpin_chat_tokenizer_NativeTokenizer_nativeEncode E env s2 ptr text
        = .undefined ∧
      Java_com_alpin_chat_tokenizer_NativeTokenizer_nativeDecode E env s2 ptr tokenIds
        = .undefined ∧
      Java_com_alpin_chat_tokenizer_NativeTokenizer_nativeVocabSize E s2 ptr = .undefined ∧
      Java_com_alpin_chat_tokenizer_NativeTokenizer_nativeCountTokens E env s2 ptr text
        = .undefined ∧
      Java_com_alpin_chat_tokenizer_NativeTokenizer_nativeIsLoaded E s2 ptr = .undefined ∧
      Java_com_alpin_chat_tokenizer_NativeTokenizer_nativeDestroy E s2 ptr = .undefined) := by
  refine ⟨⟨?_, ?_, ?_⟩, ?_, ?_⟩
  · simp [Java_com_alpin_chat_tokenizer_NativeTokenizer_nativeDestroy, get_handle, hne, hlive]
  · simp [Heap.free]
  · intro q hq
    exact Heap.free_other s ptr q hq
  · intro s2
    simp [Java_com_alpin_chat_tokenizer_NativeTokenizer_nativeDestroy,
      Java_com_alpin_chat_tokenizer_NativeTokenizer_nativeLoad,
      Java_com_alpin_chat_tokenizer_NativeTokenizer_nativeEncode,
      Java_com_alpin_chat_tokenizer_NativeTokenizer_nativeDecode,
      Java_com_alpin_chat_tokenizer_NativeTokenizer_nativeVocabSize,
      Java_com_alpin_chat_tokenizer_NativeTokenizer_nativeCountTokens,
      Java_com_alpin_chat_tokenizer_NativeTokenizer_nativeIsLoaded, get_handle]
  · intro s2 hs2
    refine ⟨?_, ?_, ?_, ?_, ?_, ?_, ?_⟩
    · intro hv hm
      simp [Java_com_alpin_chat_tokenizer_NativeTokenizer_nativeLoad, get_handle, hne, hs2,
        hv, hm]
    · simp [Java_com_alpin_chat_tokenizer_NativeTokenizer_nativeEncode, get_handle, hne, hs2]
    · simp [Java_com_alpin_chat_tokenizer_NativeTokenizer_nativeDecode, get_handle, hne, hs2]
    · simp [Java_com_alpin_chat_tokenizer_NativeTokenizer_nativeVocabSize, get_handle, hne,
        hs2]
    · simp [Java_com_alpin_chat_tokenizer_NativeTokenizer_nativeCountTokens, get_handle, hne,
        hs2]
    · simp [Java_com_alpin_chat_tokenizer_NativeTokenizer_nativeIsLoaded, get_handle, hne,
        hs2]
    · simp [Java_com_alpin_chat_tokenizer_NativeTokenizer_nativeDestroy, get_handle, hne, hs2]

/-- C8 (amended) at a concrete input: destroying the loaded instance of the
reference engine at address 1 completes, and an encode with the released
handle then has no defined behaviour, while one with the null handle
returns `NULL`. -/
theorem C8_only_null_detected_witness :
    ((1 : Nat) ≠ 0 ∧ (Heap.empty.write 1 ⟨specLoaded, true⟩) 1 = some ⟨specLoaded, true⟩) ∧
    Java_com_alpin_chat_tokenizer_NativeTokenizer_nativeDestroy specEngine
        (Heap.empty.write 1 ⟨specLoaded, true⟩) 1
      = .ok ⟨(), (Heap.empty.write 1 ⟨specLoaded, true⟩).free 1, [.gpt2_free 1]⟩ ∧
    Java_com_alpin_chat_tokenizer_NativeTokenizer_nativeEncode specEngine (JNIEnv.allOk 0)
        ((Heap.empty.write 1 ⟨specLoaded, true⟩).free 1) 0 "ab"
      = .ok ⟨none, (Heap.empty.write 1 ⟨specLoaded, true⟩).free 1, []⟩ ∧
    Java_com_alpin_chat_tokenizer_NativeTokenizer_nativeEncode specEngine (JNIEnv.allOk 0)
        ((Heap.empty.write 1 ⟨specLoaded, true⟩).free 1) 1 "ab" = .undefined :=
  ⟨⟨by decide, rfl⟩,
   match C8_only_null_detected specEngine (JNIEnv.allOk 0)
      (Heap.empty.write 1 ⟨specLoaded, true⟩) 1 ⟨specLoaded, true⟩ "vocab.json" "merges.txt"
      "ab" [2] (by decide) rfl with
   | ⟨⟨hd, hfree, _⟩, hnull, hreleased⟩ =>
     ⟨hd, (hnull _).2.2.1, (hreleased _ hfree).2.1⟩⟩

end TokenizerJNI
